import Mathlib

/-!
Verification of the SDK-object normalizer and response-envelope protocol of
the pingera-mcp repository (`src/pingera_mcp/tools/base.py`,
`src/pingera_mcp/tools/pages.py`, `src/pingera_mcp/tools/heartbeats.py`,
`src/pingera_mcp/sdk_client.py`), as a shallow embedding in Lean.

Python runtime values are modelled by `PyVal`.  An SDK response object
(`PyVal.pyobj`) carries exactly the introspection facets the code in
`base.py` consults: a `to_dict` method (absent / raising / returning a
value), an `attribute_map` (absent / raising / a list of
python-name-to-api-name pairs), a `__dict__` (absent / raising on
iteration / a list of key-value entries, which is also what `vars()`
returns), a `dir()` call that can raise, and the object's gettable
attributes with their callability.  Exceptions are modelled with
`Except`; the normalizer's per-strategy `try/except` blocks become the
`.error` branches that leave the accumulated result unchanged.

Modelling notes, for faithfulness to `base.py`:
- `hasattr`/`getattr` on a name bound to a raising getter or to a callable
  are modelled as yielding no plain value (strategy 2 skips such names,
  strategy 4's per-attribute `try` skips raising getters and its
  `callable(...)` filter skips methods).
- primitive values and lists expose no extractable facets (`to_dict`,
  `attribute_map`, `__dict__` are absent, `vars()` raises, `dir()` yields
  no public non-callable names), which matches CPython for `list`, the
  only non-object top-level input exercised here; so for them every
  strategy yields nothing and the sentinel is produced.
- a datetime value is modelled by its `isoformat()` rendering; the code
  detects datetimes by `hasattr(value, 'isoformat')`.
-/

mutual

inductive PyVal : Type where
  | pynone : PyVal
  | pybool (b : Bool) : PyVal
  | pyint (n : Int) : PyVal
  | pystr (s : String) : PyVal
  | pydatetime (iso : String) : PyVal
  | pylist (xs : List PyVal) : PyVal
  | pydict (kvs : List (String × PyVal)) : PyVal
  | pyobj (o : PyObjData) : PyVal

inductive PyObjData : Type where
  | mk (typeName : String)
       (toDict : Option (Except String PyVal))
       (attributeMap : Option (Except String (List (String × String))))
       (dunder : Option (Except String (List (String × PyVal))))
       (dirExc : Option String)
       (attrs : List (String × AttrKind)) : PyObjData

inductive AttrKind : Type where
  | val (v : PyVal) : AttrKind
  | raising (msg : String) : AttrKind
  | method : AttrKind

end

namespace PyObjData

def typeName : PyObjData → String
  | .mk tn _ _ _ _ _ => tn

def toDict : PyObjData → Option (Except String PyVal)
  | .mk _ td _ _ _ _ => td

def attributeMap : PyObjData → Option (Except String (List (String × String)))
  | .mk _ _ am _ _ _ => am

def dunder : PyObjData → Option (Except String (List (String × PyVal)))
  | .mk _ _ _ dd _ _ => dd

def dirExc : PyObjData → Option String
  | .mk _ _ _ _ de _ => de

def attrs : PyObjData → List (String × AttrKind)
  | .mk _ _ _ _ _ a => a

end PyObjData

/-- `str(type(obj))` as logged into the `_raw_object_type` sentinel field. -/
def pyTypeName : PyVal → String
  | .pynone => "<class 'NoneType'>"
  | .pybool _ => "<class 'bool'>"
  | .pyint _ => "<class 'int'>"
  | .pystr _ => "<class 'str'>"
  | .pydatetime _ => "<class 'datetime.datetime'>"
  | .pylist _ => "<class 'list'>"
  | .pydict _ => "<class 'dict'>"
  | .pyobj o => o.typeName

/-! ### Python dict semantics (string-keyed, insertion-ordered) -/

/-- `k in d` for a Python dict modelled as an insertion-ordered
association list. -/
def containsKey (d : List (String × PyVal)) (k : String) : Bool :=
  match d with
  | [] => false
  | p :: rest => (p.1 == k) || containsKey rest k

/-- `d[k]` lookup (the association lists built by `dictSet` never hold a
key twice, so the first binding is the binding). -/
def dictLookup (d : List (String × PyVal)) (k : String) : Option PyVal :=
  match d with
  | [] => Option.none
  | p :: rest => if p.1 == k then some p.2 else dictLookup rest k

/-- `d[k] = v`: overwrite in place if the key exists (keeping its
position, as CPython dicts do), otherwise append. -/
def dictSet (d : List (String × PyVal)) (k : String) (v : PyVal) :
    List (String × PyVal) :=
  match d with
  | [] => [(k, v)]
  | p :: rest => if p.1 == k then (k, v) :: rest else p :: dictSet rest k v

/-- `d.update(kvs)`: `d[k] = v` for each entry of `kvs` in order. -/
def dictUpdate (d : List (String × PyVal)) (kvs : List (String × PyVal)) :
    List (String × PyVal) :=
  kvs.foldl (fun r p => dictSet r p.1 p.2) d

/-- `getattr(obj_attrs, n)` restricted to plain data attributes: yields the
value of the first attribute named `n` when it is a non-raising,
non-callable value, and nothing otherwise. -/
def getattrVal (attrs : List (String × AttrKind)) (n : String) : Option PyVal :=
  match attrs with
  | [] => Option.none
  | (m, a) :: rest =>
    if m == n then
      match a with
      | .val v => some v
      | _ => Option.none
    else getattrVal rest n

/-- `hasattr(value, '__dict__')`: true exactly for objects exposing a
`__dict__` (primitives, lists, dicts and C-implemented datetimes have
none). -/
def hasDunder : PyVal → Bool
  | .pyobj o => o.dunder.isSome
  | _ => false

/-- `attr.startswith('_')` on an attribute name (Lean's own
`String.startsWith` is not kernel-reducible, so the check is modelled on
the character list). -/
def underscoreFirst (s : String) : Bool :=
  match s.toList with
  | [] => false
  | c :: _ => c == '_'

/-! ### The normalizer `BaseTools._convert_sdk_object_to_dict` (base.py, lines 34-186)

`convert` is the whole function; `normVal` is the value-normalization rule
repeated verbatim in strategies 2-5 (datetime → `isoformat()` string,
object with `__dict__` → recursive conversion, list → element-wise, else
stored as-is); `s2Go`-`s5Go` are the loops of strategies 2-5 threading the
mutable `result` dict. -/

/-- STRATEGY 1 (base.py, lines 57-65): `to_dict()`; its result is kept
only when it is a dict; a raising `to_dict` is caught and contributes
nothing. -/
def strat1 (td : Option (Except String PyVal)) : List (String × PyVal) :=
  match td with
  | some (.ok (.pydict kvs)) => dictUpdate [] kvs
  | _ => []

/-- Sentinel fallback (base.py, lines 181-184): when every strategy
yielded nothing, return the `_extraction_failed` marker instead of an
empty dict. -/
def orSentinel (tn : String) (r : List (String × PyVal)) : List (String × PyVal) :=
  if r.isEmpty then
    [("_raw_object_type", .pystr tn), ("_extraction_failed", .pybool true)]
  else r

mutual

def convert (v : PyVal) : List (String × PyVal) :=
  match v with
  | .pynone => []
  | .pydict kvs => kvs
  | .pyobj (.mk tn td am dd de attrs) =>
    orSentinel tn
      (strat5 dd (strat4 de attrs (strat3 dd (strat2 attrs am (strat1 td)))))
  | w =>
    [("_raw_object_type", .pystr (pyTypeName w)),
     ("_extraction_failed", .pybool true)]
termination_by sizeOf v
decreasing_by all_goals (simp_wf; try omega)

/-- STRATEGY 2 (base.py, lines 67-92): `attribute_map`; raising access or
iteration is caught, leaving the result as it was. -/
def strat2 (attrs : List (String × AttrKind))
    (am : Option (Except String (List (String × String))))
    (r : List (String × PyVal)) : List (String × PyVal) :=
  match am with
  | some (.ok pairs) => s2Go attrs pairs r
  | _ => r
termination_by sizeOf attrs + sizeOf am
decreasing_by all_goals (simp_wf; try omega)

/-- STRATEGY 3 (base.py, lines 94-113): `__dict__`; raising iteration is
caught. -/
def strat3 (dd : Option (Except String (List (String × PyVal))))
    (r : List (String × PyVal)) : List (String × PyVal) :=
  match dd with
  | some (.ok entries) => s3Go entries r
  | _ => r
termination_by sizeOf dd
decreasing_by all_goals (simp_wf; try omega)

/-- STRATEGY 4 (base.py, lines 115-149): `dir()` scan over public,
non-callable attributes, adding unseen keys only; a raising `dir()` is
caught and skips the whole pass. -/
def strat4 (de : Option String) (attrs : List (String × AttrKind))
    (r : List (String × PyVal)) : List (String × PyVal) :=
  match de with
  | some _ => r
  | Option.none => s4Go attrs r
termination_by sizeOf attrs + 1
decreasing_by all_goals (simp_wf; try omega)

/-- STRATEGY 5 (base.py, lines 151-166): `vars()`, i.e. `__dict__` again,
adding unseen keys only; `vars()` raising (object without `__dict__`) is
caught. -/
def strat5 (dd : Option (Except String (List (String × PyVal))))
    (r : List (String × PyVal)) : List (String × PyVal) :=
  match dd with
  | some (.ok entries) => s5Go entries r
  | _ => r
termination_by sizeOf dd
decreasing_by all_goals (simp_wf; try omega)

def normVal (v : PyVal) : PyVal :=
  match v with
  | .pydatetime iso => .pystr iso
  | .pyobj o =>
    if o.dunder.isSome then .pydict (convert (.pyobj o)) else .pyobj o
  | .pylist xs => .pylist (normItems xs)
  | w => w
termination_by sizeOf v + 1
decreasing_by all_goals (simp_wf; try omega)

def normItems (xs : List PyVal) : List PyVal :=
  match xs with
  | [] => []
  | item :: rest =>
    (if hasDunder item then .pydict (convert item) else item) :: normItems rest
termination_by sizeOf xs + 1
decreasing_by all_goals (simp_wf; try omega)

def s2Go (attrs : List (String × AttrKind)) (pairs : List (String × String))
    (r : List (String × PyVal)) : List (String × PyVal) :=
  match pairs with
  | [] => r
  | (pn, an) :: rest =>
    match h : getattrVal attrs pn with
    | some .pynone => s2Go attrs rest r
    | some value =>
      let nv := normVal value
      let r1 := dictSet r an nv
      let r2 := if pn ≠ an then dictSet r1 pn nv else r1
      s2Go attrs rest r2
    | Option.none => s2Go attrs rest r
termination_by sizeOf attrs + sizeOf pairs
decreasing_by
  all_goals simp_wf
  all_goals try omega
  all_goals
    (have hlt : sizeOf value < sizeOf attrs := by
      clear * - h
      induction attrs with
      | nil => simp [getattrVal] at h
      | cons p rest ih =>
        obtain ⟨m, a⟩ := p
        simp only [getattrVal] at h
        by_cases hm : (m == pn) = true
        · rw [if_pos hm] at h
          cases a with
          | val w =>
            simp at h
            subst h
            simp
            omega
          | raising msg => simp at h
          | method => simp at h
        · rw [if_neg hm] at h
          have := ih h
          simp
          omega
     omega)

def s3Go (entries : List (String × PyVal)) (r : List (String × PyVal)) :
    List (String × PyVal) :=
  match entries with
  | [] => r
  | (_, .pynone) :: rest => s3Go rest r
  | (k, v) :: rest => s3Go rest (dictSet r k (normVal v))
termination_by sizeOf entries
decreasing_by all_goals (simp_wf; try omega)

def s4Go (attrs : List (String × AttrKind)) (r : List (String × PyVal)) :
    List (String × PyVal) :=
  match attrs with
  | [] => r
  | (n, .val v) :: rest =>
    if underscoreFirst n then s4Go rest r
    else
      match v with
      | .pynone => s4Go rest r
      | v' =>
        if containsKey r n then s4Go rest r
        else s4Go rest (dictSet r n (normVal v'))
  | _ :: rest => s4Go rest r
termination_by sizeOf attrs
decreasing_by all_goals (simp_wf; try omega)

def s5Go (entries : List (String × PyVal)) (r : List (String × PyVal)) :
    List (String × PyVal) :=
  match entries with
  | [] => r
  | (k, v) :: rest =>
    if containsKey r k then s5Go rest r
    else
      match v with
      | .pynone => s5Go rest r
      | v' => s5Go rest (dictSet r k (normVal v'))
termination_by sizeOf entries
decreasing_by all_goals (simp_wf; try omega)

end

/-! ### `json.dumps` (as used by the envelope builders in base.py, lines 19-32)

`_success_response` serializes with `default=str`, so any non-JSON-native
value (datetime, raw SDK object) is rendered through `str(...)` instead of
raising; `_error_response` serializes without a default, so such a value
makes `json.dumps` raise `TypeError`, modelled as `Option.none`.
String escaping inside `jsonQuote` is elided: it never affects
success/failure of serialization. -/

/-- `str(value)` for the values `default=str` can receive. -/
def pyStr : PyVal → String
  | .pynone => "None"
  | .pybool b => cond b "True" "False"
  | .pyint n => toString n
  | .pystr s => s
  | .pydatetime iso => iso
  | .pylist _ => "<list>"
  | .pydict _ => "<dict>"
  | .pyobj o => o.typeName

def jsonQuote (s : String) : String := "\"" ++ s ++ "\""

mutual

def dumps (useDefault : Bool) (v : PyVal) : Option String :=
  match v with
  | .pynone => some ("null")
  | .pybool b => some (cond b "true" "false")
  | .pyint n => some (toString n)
  | .pystr s => some (jsonQuote s)
  | .pydatetime iso =>
    if useDefault then some (jsonQuote (pyStr (.pydatetime iso))) else Option.none
  | .pyobj o =>
    if useDefault then some (jsonQuote (pyStr (.pyobj o))) else Option.none
  | .pylist xs => (dumpsList useDefault xs).map (fun body => "[" ++ body ++ "]")
  | .pydict kvs =>
    (dumpsEntries useDefault kvs).map (fun body => "\x7b" ++ body ++ "\x7d")
termination_by sizeOf v
decreasing_by all_goals (simp_wf; try omega)

def dumpsList (useDefault : Bool) (xs : List PyVal) : Option String :=
  match xs with
  | [] => some ("")
  | [x] => dumps useDefault x
  | x :: rest =>
    match dumps useDefault x, dumpsList useDefault rest with
    | some sx, some sr => some (sx ++ ", " ++ sr)
    | _, _ => Option.none
termination_by sizeOf xs
decreasing_by all_goals (simp_wf; try omega)

def dumpsEntries (useDefault : Bool) (kvs : List (String × PyVal)) : Option String :=
  match kvs with
  | [] => some ("")
  | (k, v) :: rest =>
    match dumps useDefault v, dumpsEntries useDefault rest with
    | some sv, some sr =>
      some (jsonQuote k ++ ": " ++ sv ++ (cond rest.isEmpty "" ", ") ++ sr)
    | _, _ => Option.none
termination_by sizeOf kvs
decreasing_by all_goals (simp_wf; try omega)

end

/-! ### Response Envelope Builder (base.py, lines 19-32) -/

/-- The dict literal built by `BaseTools._success_response`. -/
def success_envelope (data : PyVal) : List (String × PyVal) :=
  [("success", .pybool true), ("data", data)]

/-- The dict literal built by `BaseTools._error_response` (`data`
defaults to `None` at the call sites that omit it). -/
def error_envelope (msg : String) (data : PyVal) : List (String × PyVal) :=
  [("success", .pybool false), ("error", .pystr msg), ("data", data)]

/-- `BaseTools._success_response`: `json.dumps({...}, indent=2, default=str)`. -/
def success_response (data : PyVal) : Option String :=
  dumps true (.pydict (success_envelope data))

/-- `BaseTools._error_response`: `json.dumps({...}, indent=2)` — no
`default` fallback. -/
def error_response (msg : String) (data : PyVal) : Option String :=
  dumps false (.pydict (error_envelope msg data))

/-! ### Tool pipelines cited by the claims (pages.py, heartbeats.py, sdk_client.py) -/

/-- Outcome of the one collaborator call a tool pipeline makes: a normal
return carrying the data the tool builds from it, a raised
`PingeraError`, or a raised exception of any other type. -/
inductive SdkOutcome : Type where
  | ok (data : PyVal) : SdkOutcome
  | pingeraError (msg : String) : SdkOutcome
  | otherError (msg : String) : SdkOutcome

/-- `PagesTools.list_pages` (pages.py, lines 32-56): the envelope dict the
tool serializes, or the exception that escapes it.  Only `PingeraError`
is caught; its handler returns the failure envelope with partial data
`{"pages": [], "total": 0}`; any other exception propagates out of the
tool. -/
def list_pages_envelope : SdkOutcome → Except String (List (String × PyVal))
  | .ok d => .ok (success_envelope d)
  | .pingeraError m =>
    .ok (error_envelope m (.pydict [("pages", .pylist []), ("total", .pyint 0)]))
  | .otherError m => .error m

/-- `HeartbeatsTools.create_heartbeat` (heartbeats.py, lines 82-96): the
dict it always serializes — no collaborator call is made; note the
`message` key and the absence of a `data` key. -/
def create_heartbeat_envelope : List (String × PyVal) :=
  [("success", .pybool false),
   ("error", .pystr ("Heartbeat creation not yet implemented in SDK")),
   ("message", .pystr ("Write operations require SDK method implementation"))]

/-- `PagesTools.delete_page` success branch (pages.py, lines 226-231):
also carries a `message` key on top of `success`/`data`. -/
def delete_page_success_envelope (pageId : String) : List (String × PyVal) :=
  [("success", .pybool true),
   ("message", .pystr ("Page " ++ pageId ++ " deleted successfully")),
   ("data", .pydict [("page_id", .pystr pageId)])]

/-- The parameter clamp in `PagesTools.list_pages` (pages.py, lines
36-37): `if per_page is not None and per_page > 100: per_page = 100`. -/
def list_pages_clamp (perPage : Option Int) : Option Int :=
  match perPage with
  | some p => if p > 100 then some 100 else some p
  | Option.none => Option.none

/-- Python `x or d` for an optional integer: `d` is substituted when `x`
is `None` — and also when it is `0`, since `0` is falsy. -/
def pyOrInt (v : Option Int) (d : Int) : Int :=
  match v with
  | some p => if p = 0 then d else p
  | Option.none => d

/-- `PagesEndpointSDK.list` (sdk_client.py, lines 150-159): the
`(page, page_size)` pair actually passed to `v1_pages_get`, namely
`(page or 1, per_page or 20)`. -/
def pages_sdk_list_args (page perPage : Option Int) : Int × Int :=
  (pyOrInt page 1, pyOrInt perPage 20)

/-- End-to-end pagination forwarding of the `list_pages` tool: the tool
clamps `per_page`, then `client.get_pages` delegates to
`PagesEndpointSDK.list`, which applies the `or`-defaults. -/
def list_pages_api_args (page perPage : Option Int) : Int × Int :=
  pages_sdk_list_args page (list_pages_clamp perPage)

/-- `HeartbeatsTools.list_heartbeats` (heartbeats.py, lines 39-47): the
kwargs dict passed to `v1_heartbeats_get` — parameters are included only
when present and are not altered. -/
def list_heartbeats_kwargs (page pageSize : Option Int) : List (String × Int) :=
  (match page with | some p => [("page", p)] | Option.none => []) ++
  (match pageSize with | some s => [("page_size", s)] | Option.none => [])

/-! ### Envelope shapes (spec §4.2) -/

/-- The success shape `{"success": true, "data": ...}` with no extra or
missing top-level keys. -/
def isSuccessEnvelope (kvs : List (String × PyVal)) : Prop :=
  (∀ k, containsKey kvs k = true ↔ (k = "success" ∨ k = "data")) ∧
  dictLookup kvs "success" = some (.pybool true)

/-- The failure shape `{"success": false, "error": <string>, "data": ...}`
with no extra or missing top-level keys. -/
def isErrorEnvelope (kvs : List (String × PyVal)) : Prop :=
  (∀ k, containsKey kvs k = true ↔ (k = "success" ∨ k = "error" ∨ k = "data")) ∧
  dictLookup kvs "success" = some (.pybool false) ∧
  ∃ m, dictLookup kvs "error" = some (.pystr m)

/-! Concrete demonstration objects (shapes taken from the spec's example
scenarios). -/

/-- An object whose only facet is a readable `__dict__`. -/
def demoA : PyObjData :=
  .mk "<class 'A'>" Option.none Option.none
    (some (.ok [("name", PyVal.pystr "a")])) Option.none []

/-- Like `demoA`, with a different value. -/
def demoB : PyObjData :=
  .mk "<class 'B'>" Option.none Option.none
    (some (.ok [("name", PyVal.pystr "b")])) Option.none []

/-- A fully opaque object: `__dict__` iteration raises and `dir()`
raises, so every strategy yields nothing. -/
def demoOpaque : PyObjData :=
  .mk "<class 'Opaque'>" Option.none Option.none
    (some (.error "unreadable __dict__")) (some "dir() raised") []

/-! ### Helper lemmas -/

/-- `json.dumps(..., default=str)` succeeds on every value: every
non-JSON-native leaf is rendered through `str`. -/
theorem dumps_default_total : ∀ v : PyVal, (dumps true v).isSome := by
  have main : ∀ (n : Nat),
      (∀ v : PyVal, sizeOf v ≤ n → (dumps true v).isSome) ∧
      (∀ xs : List PyVal, sizeOf xs ≤ n → (dumpsList true xs).isSome) ∧
      (∀ kvs : List (String × PyVal), sizeOf kvs ≤ n → (dumpsEntries true kvs).isSome) := by
    intro n
    induction n using Nat.strong_induction_on with
    | _ n ih =>
      refine ⟨?_, ?_, ?_⟩
      · intro v hv
        cases v with
        | pynone => simp [dumps]
        | pybool b => simp [dumps]
        | pyint m => simp [dumps]
        | pystr s => simp [dumps]
        | pydatetime iso => simp [dumps]
        | pyobj o => simp [dumps]
        | pylist xs =>
          have hlt : sizeOf xs < n := by
            simp at hv; omega
          have := (ih (sizeOf xs) hlt).2.1 xs (le_refl _)
          rw [Option.isSome_iff_exists] at this
          obtain ⟨s1, hs1⟩ := this
          simp [dumps, hs1]
        | pydict kvs =>
          have hlt : sizeOf kvs < n := by
            simp at hv; omega
          have := (ih (sizeOf kvs) hlt).2.2 kvs (le_refl _)
          rw [Option.isSome_iff_exists] at this
          obtain ⟨s1, hs1⟩ := this
          simp [dumps, hs1]
      · intro xs hxs
        match xs with
        | [] => simp [dumpsList]
        | [x] =>
          have hlt : sizeOf x < n := by
            simp at hxs; omega
          have := (ih (sizeOf x) hlt).1 x (le_refl _)
          simpa [dumpsList] using this
        | x :: y :: rest =>
          have hx : sizeOf x < n := by simp at hxs; omega
          have hr : sizeOf (y :: rest) < n := by simp at hxs; simp; omega
          have h1 := (ih (sizeOf x) hx).1 x (le_refl _)
          have h2 := (ih (sizeOf (y :: rest)) hr).2.1 (y :: rest) (le_refl _)
          rw [Option.isSome_iff_exists] at h1 h2
          obtain ⟨s1, hs1⟩ := h1
          obtain ⟨s2, hs2⟩ := h2
          simp [dumpsList, hs1, hs2]
      · intro kvs hkvs
        match kvs with
        | [] => simp [dumpsEntries]
        | (k, v) :: rest =>
          have hv : sizeOf v < n := by simp at hkvs; omega
          have hr : sizeOf rest < n := by simp at hkvs; omega
          have h1 := (ih (sizeOf v) hv).1 v (le_refl _)
          have h2 := (ih (sizeOf rest) hr).2.2 rest (le_refl _)
          rw [Option.isSome_iff_exists] at h1 h2
          obtain ⟨s1, hs1⟩ := h1
          obtain ⟨s2, hs2⟩ := h2
          simp [dumpsEntries, hs1, hs2]
  intro v
  exact (main (sizeOf v)).1 v (le_refl _)

/-! Dict-operation lemmas. -/

theorem getattrVal_sizeOf {attrs : List (String × AttrKind)} {n : String}
    {v : PyVal} (h : getattrVal attrs n = some v) : sizeOf v < sizeOf attrs := by
  induction attrs with
  | nil => simp [getattrVal] at h
  | cons p rest ih =>
    obtain ⟨m, a⟩ := p
    simp only [getattrVal] at h
    by_cases hm : (m == n) = true
    · rw [if_pos hm] at h
      cases a with
      | val w =>
        simp at h
        subst h
        simp
        omega
      | raising msg => simp at h
      | method => simp at h
    · rw [if_neg hm] at h
      have := ih h
      simp
      omega


theorem containsKey_dictSet_self (d : List (String × PyVal)) (k : String) (v : PyVal) :
    containsKey (dictSet d k v) k = true := by
  induction d with
  | nil => simp [dictSet, containsKey]
  | cons p rest ih =>
    by_cases hp : (p.1 == k) = true
    · simp [dictSet, hp, containsKey]
    · simp [dictSet, hp, containsKey, ih]

theorem containsKey_dictSet_mono {d : List (String × PyVal)} {k : String}
    (n : String) (v : PyVal) (h : containsKey d k = true) :
    containsKey (dictSet d n v) k = true := by
  induction d with
  | nil => simp [containsKey] at h
  | cons p rest ih =>
    simp [containsKey] at h
    rw [dictSet]
    by_cases hp : (p.1 == n) = true
    · rw [if_pos hp]
      have hpn : p.1 = n := by simpa using hp
      rcases h with h | h
      · have : (n == k) = true := by simp [← hpn, h]
        simp [containsKey, this]
      · simp [containsKey, h]
    · rw [if_neg hp]
      rcases h with h | h
      · simp [containsKey, h]
      · simp [containsKey, ih h]

theorem dictLookup_dictSet_ne {k n : String} (hne : ¬ k = n)
    (d : List (String × PyVal)) (v : PyVal) :
    dictLookup (dictSet d n v) k = dictLookup d k := by
  induction d with
  | nil =>
    have : (n == k) = false := by simpa using fun h => hne h.symm
    simp [dictSet, dictLookup, this]
  | cons p rest ih =>
    by_cases hp : (p.1 == n) = true
    · have hpn : p.1 = n := by simpa using hp
      have h1 : (n == k) = false := by simpa using fun h => hne h.symm
      have h2 : (p.1 == k) = false := by
        subst hpn; exact h1
      simp [dictSet, hp, dictLookup, h1, h2]
    · by_cases hk : (p.1 == k) = true
      · simp [dictSet, hp, dictLookup, hk]
      · simp [dictSet, hp, dictLookup, hk, ih]

theorem dictLookup_isSome_of_containsKey {d : List (String × PyVal)} {k : String}
    (h : containsKey d k = true) : (dictLookup d k).isSome = true := by
  induction d with
  | nil => simp [containsKey] at h
  | cons p rest ih =>
    simp [containsKey] at h
    by_cases hp : (p.1 == k) = true
    · simp [dictLookup, hp]
    · rcases h with h | h
      · simp [h] at hp
      · simp [dictLookup, hp, ih h]

theorem containsKey_of_dictLookup {d : List (String × PyVal)} {k : String} {v : PyVal}
    (h : dictLookup d k = some v) : containsKey d k = true := by
  induction d with
  | nil => simp [dictLookup] at h
  | cons p rest ih =>
    by_cases hp : (p.1 == k) = true
    · simp [containsKey, hp]
    · rw [dictLookup, if_neg hp] at h
      simp [containsKey, hp, ih h]

theorem isEmpty_false_of_containsKey {d : List (String × PyVal)} {k : String}
    (h : containsKey d k = true) : d.isEmpty = false := by
  cases d with
  | nil => simp [containsKey] at h
  | cons p rest => simp

theorem orSentinel_of_containsKey {r : List (String × PyVal)} {k : String}
    (tn : String) (h : containsKey r k = true) : orSentinel tn r = r := by
  unfold orSentinel
  rw [isEmpty_false_of_containsKey h]
  simp

/-! Reduction lemmas for the strategy loops (their equations carry
pattern-overlap side conditions, discharged here once). -/

theorem s3Go_nil (r : List (String × PyVal)) : s3Go [] r = r := by
  rw [s3Go]

theorem s3Go_cons_none (k' : String) (rest r : List (String × PyVal)) :
    s3Go ((k', PyVal.pynone) :: rest) r = s3Go rest r := by
  rw [s3Go]

theorem s3Go_cons_ne {v' : PyVal} (hne : ¬ v' = PyVal.pynone)
    (k' : String) (rest r : List (String × PyVal)) :
    s3Go ((k', v') :: rest) r = s3Go rest (dictSet r k' (normVal v')) := by
  cases v' with
  | pynone => exact absurd rfl hne
  | pybool b => rw [s3Go]; simp
  | pyint n => rw [s3Go]; simp
  | pystr s => rw [s3Go]; simp
  | pydatetime iso => rw [s3Go]; simp
  | pylist xs => rw [s3Go]; simp
  | pydict kvs => rw [s3Go]; simp
  | pyobj o => rw [s3Go]; simp

theorem s3Go_mono : ∀ (entries r : List (String × PyVal)) (k : String),
    containsKey r k = true → containsKey (s3Go entries r) k = true := by
  intro entries
  induction entries with
  | nil => intro r k h; simpa [s3Go_nil] using h
  | cons p rest ih =>
    intro r k h
    obtain ⟨k', v'⟩ := p
    by_cases hv : v' = PyVal.pynone
    · subst hv; rw [s3Go_cons_none]; exact ih r k h
    · rw [s3Go_cons_ne hv]; exact ih _ k (containsKey_dictSet_mono _ _ h)

theorem s5Go_nil (r : List (String × PyVal)) : s5Go [] r = r := by
  rw [s5Go]

theorem s5Go_cons_seen {r : List (String × PyVal)} {k' : String}
    (h : containsKey r k' = true) (v' : PyVal) (rest : List (String × PyVal)) :
    s5Go ((k', v') :: rest) r = s5Go rest r := by
  cases v' <;> (rw [s5Go] <;> simp [h])

theorem s5Go_cons_none (k' : String) (rest r : List (String × PyVal)) :
    s5Go ((k', PyVal.pynone) :: rest) r = s5Go rest r := by
  rw [s5Go]; simp

theorem s5Go_cons_new {r : List (String × PyVal)} {k' : String} {v' : PyVal}
    (hk : containsKey r k' = false) (hv : ¬ v' = PyVal.pynone)
    (rest : List (String × PyVal)) :
    s5Go ((k', v') :: rest) r = s5Go rest (dictSet r k' (normVal v')) := by
  cases v' with
  | pynone => exact absurd rfl hv
  | pybool b => rw [s5Go] <;> simp [hk]
  | pyint n => rw [s5Go] <;> simp [hk]
  | pystr s => rw [s5Go] <;> simp [hk]
  | pydatetime iso => rw [s5Go] <;> simp [hk]
  | pylist xs => rw [s5Go] <;> simp [hk]
  | pydict kvs => rw [s5Go] <;> simp [hk]
  | pyobj o => rw [s5Go] <;> simp [hk]

theorem s4Go_nil (r : List (String × PyVal)) : s4Go [] r = r := by
  rw [s4Go]

theorem s4Go_cons_underscore {n : String} (h : underscoreFirst n = true)
    (v : PyVal) (rest : List (String × AttrKind)) (r : List (String × PyVal)) :
    s4Go ((n, AttrKind.val v) :: rest) r = s4Go rest r := by
  cases v <;> (rw [s4Go] <;> simp [h])

theorem s4Go_cons_val_none (n : String) (rest : List (String × AttrKind))
    (r : List (String × PyVal)) :
    s4Go ((n, AttrKind.val PyVal.pynone) :: rest) r = s4Go rest r := by
  rw [s4Go]; simp

theorem s4Go_cons_seen {n : String} {r : List (String × PyVal)}
    (hu : underscoreFirst n = false) (hc : containsKey r n = true)
    (v : PyVal) (rest : List (String × AttrKind)) :
    s4Go ((n, AttrKind.val v) :: rest) r = s4Go rest r := by
  cases v <;> (rw [s4Go] <;> simp [hu, hc])

theorem s4Go_cons_new {n : String} {v : PyVal} {r : List (String × PyVal)}
    (hu : underscoreFirst n = false) (hv : ¬ v = PyVal.pynone)
    (hc : containsKey r n = false) (rest : List (String × AttrKind)) :
    s4Go ((n, AttrKind.val v) :: rest) r = s4Go rest (dictSet r n (normVal v)) := by
  cases v with
  | pynone => exact absurd rfl hv
  | pybool b => rw [s4Go] <;> simp [hu, hc]
  | pyint m => rw [s4Go] <;> simp [hu, hc]
  | pystr s => rw [s4Go] <;> simp [hu, hc]
  | pydatetime iso => rw [s4Go] <;> simp [hu, hc]
  | pylist xs => rw [s4Go] <;> simp [hu, hc]
  | pydict kvs => rw [s4Go] <;> simp [hu, hc]
  | pyobj o => rw [s4Go] <;> simp [hu, hc]

theorem s4Go_cons_raising (n msg : String) (rest : List (String × AttrKind))
    (r : List (String × PyVal)) :
    s4Go ((n, AttrKind.raising msg) :: rest) r = s4Go rest r := by
  rw [s4Go] <;> simp

theorem s4Go_cons_method (n : String) (rest : List (String × AttrKind))
    (r : List (String × PyVal)) :
    s4Go ((n, AttrKind.method) :: rest) r = s4Go rest r := by
  rw [s4Go] <;> simp

theorem s2Go_nil (attrs : List (String × AttrKind)) (r : List (String × PyVal)) :
    s2Go attrs [] r = r := by
  rw [s2Go]

theorem s2Go_cons_absent {attrs : List (String × AttrKind)} {pn : String}
    (hg : getattrVal attrs pn = Option.none) (an : String)
    (rest : List (String × String)) (r : List (String × PyVal)) :
    s2Go attrs ((pn, an) :: rest) r = s2Go attrs rest r := by
  rw [s2Go]
  split <;> simp_all

theorem s2Go_cons_none {attrs : List (String × AttrKind)} {pn : String}
    (hg : getattrVal attrs pn = some PyVal.pynone) (an : String)
    (rest : List (String × String)) (r : List (String × PyVal)) :
    s2Go attrs ((pn, an) :: rest) r = s2Go attrs rest r := by
  rw [s2Go]
  split <;> simp_all

theorem s2Go_cons_val {attrs : List (String × AttrKind)} {pn : String}
    {value : PyVal} (hg : getattrVal attrs pn = some value)
    (hv : ¬ value = PyVal.pynone) (an : String)
    (rest : List (String × String)) (r : List (String × PyVal)) :
    s2Go attrs ((pn, an) :: rest) r =
      s2Go attrs rest
        (if pn ≠ an then dictSet (dictSet r an (normVal value)) pn (normVal value)
         else dictSet r an (normVal value)) := by
  cases value with
  | pynone => exact absurd rfl hv
  | pybool b => rw [s2Go]; split <;> simp_all
  | pyint m => rw [s2Go]; split <;> simp_all
  | pystr s => rw [s2Go]; split <;> simp_all
  | pydatetime iso => rw [s2Go]; split <;> simp_all
  | pylist xs => rw [s2Go]; split <;> simp_all
  | pydict kvs => rw [s2Go]; split <;> simp_all
  | pyobj o => rw [s2Go]; split <;> simp_all

theorem s5Go_mono : ∀ (entries r : List (String × PyVal)) (k : String),
    containsKey r k = true → containsKey (s5Go entries r) k = true := by
  intro entries
  induction entries with
  | nil => intro r k h; simpa [s5Go_nil] using h
  | cons p rest ih =>
    intro r k h
    obtain ⟨k', v'⟩ := p
    by_cases hc : containsKey r k' = true
    · rw [s5Go_cons_seen hc]; exact ih r k h
    · by_cases hv : v' = PyVal.pynone
      · subst hv; rw [s5Go_cons_none]; exact ih r k h
      · rw [s5Go_cons_new (by simpa using hc) hv]
        exact ih _ k (containsKey_dictSet_mono _ _ h)

theorem s4Go_mono : ∀ (attrs : List (String × AttrKind)) (r : List (String × PyVal))
    (k : String), containsKey r k = true → containsKey (s4Go attrs r) k = true := by
  intro attrs
  induction attrs with
  | nil => intro r k h; simpa [s4Go_nil] using h
  | cons p rest ih =>
    intro r k h
    obtain ⟨n, a⟩ := p
    cases a with
    | val v =>
      by_cases hu : underscoreFirst n = true
      · rw [s4Go_cons_underscore hu]; exact ih r k h
      · replace hu : underscoreFirst n = false := by simpa using hu
        by_cases hv : v = PyVal.pynone
        · subst hv; rw [s4Go_cons_val_none]; exact ih r k h
        · by_cases hc : containsKey r n = true
          · rw [s4Go_cons_seen hu hc]; exact ih r k h
          · rw [s4Go_cons_new hu hv (by simpa using hc)]
            exact ih _ k (containsKey_dictSet_mono _ _ h)
    | raising msg => rw [s4Go_cons_raising]; exact ih r k h
    | method => rw [s4Go_cons_method]; exact ih r k h

theorem s2Go_mono : ∀ (pairs : List (String × String))
    (attrs : List (String × AttrKind)) (r : List (String × PyVal)) (k : String),
    containsKey r k = true → containsKey (s2Go attrs pairs r) k = true := by
  intro pairs
  induction pairs with
  | nil => intro attrs r k h; simpa [s2Go_nil] using h
  | cons p rest ih =>
    intro attrs r k h
    obtain ⟨pn, an⟩ := p
    cases hg : getattrVal attrs pn with
    | none => rw [s2Go_cons_absent hg]; exact ih attrs r k h
    | some value =>
      by_cases hv : value = PyVal.pynone
      · subst hv; rw [s2Go_cons_none hg]; exact ih attrs r k h
      · rw [s2Go_cons_val hg hv]
        by_cases hpa : pn = an
        · simp [hpa]
          exact ih attrs _ k (containsKey_dictSet_mono _ _ h)
        · simp [hpa]
          exact ih attrs _ k
            (containsKey_dictSet_mono _ _ (containsKey_dictSet_mono _ _ h))

theorem s4Go_preserves : ∀ (attrs : List (String × AttrKind))
    (r : List (String × PyVal)) (k : String), containsKey r k = true →
    dictLookup (s4Go attrs r) k = dictLookup r k := by
  intro attrs
  induction attrs with
  | nil => intro r k h; simp [s4Go_nil]
  | cons p rest ih =>
    intro r k h
    obtain ⟨n, a⟩ := p
    cases a with
    | val v =>
      by_cases hu : underscoreFirst n = true
      · rw [s4Go_cons_underscore hu]; exact ih r k h
      · replace hu : underscoreFirst n = false := by simpa using hu
        by_cases hv : v = PyVal.pynone
        · subst hv; rw [s4Go_cons_val_none]; exact ih r k h
        · by_cases hc : containsKey r n = true
          · rw [s4Go_cons_seen hu hc]; exact ih r k h
          · rw [s4Go_cons_new hu hv (by simpa using hc)]
            have hkn : ¬ k = n := fun he => hc (he ▸ h)
            rw [ih _ k (containsKey_dictSet_mono _ _ h)]
            exact dictLookup_dictSet_ne hkn r (normVal v)
    | raising msg => rw [s4Go_cons_raising]; exact ih r k h
    | method => rw [s4Go_cons_method]; exact ih r k h

theorem s5Go_preserves : ∀ (entries r : List (String × PyVal)) (k : String),
    containsKey r k = true →
    dictLookup (s5Go entries r) k = dictLookup r k := by
  intro entries
  induction entries with
  | nil => intro r k h; simp [s5Go_nil]
  | cons p rest ih =>
    intro r k h
    obtain ⟨k', v'⟩ := p
    by_cases hc : containsKey r k' = true
    · rw [s5Go_cons_seen hc]; exact ih r k h
    · by_cases hv : v' = PyVal.pynone
      · subst hv; rw [s5Go_cons_none]; exact ih r k h
      · rw [s5Go_cons_new (by simpa using hc) hv]
        have hkn : ¬ k = k' := fun he => hc (he ▸ h)
        rw [ih _ k (containsKey_dictSet_mono _ _ h)]
        exact dictLookup_dictSet_ne hkn r (normVal v')

theorem s3Go_establish : ∀ (entries r : List (String × PyVal)) (kk : String)
    (vv : PyVal), (kk, vv) ∈ entries → ¬ vv = PyVal.pynone →
    containsKey (s3Go entries r) kk = true := by
  intro entries
  induction entries with
  | nil => intro r kk vv hm; simp at hm
  | cons p rest ih =>
    intro r kk vv hm hvv
    obtain ⟨k', v'⟩ := p
    rcases List.mem_cons.mp hm with he | ht
    · injection he with hk hv
      subst hk
      subst hv
      rw [s3Go_cons_ne hvv]
      exact s3Go_mono rest _ kk (containsKey_dictSet_self r kk (normVal vv))
    · by_cases hv : v' = PyVal.pynone
      · subst hv; rw [s3Go_cons_none]; exact ih r kk vv ht hvv
      · rw [s3Go_cons_ne hv]; exact ih _ kk vv ht hvv

/-! Reduction lemmas for the strategy wrappers. -/

theorem strat1_none : strat1 Option.none = [] := by
  rw [strat1] <;> simp

theorem strat2_ok (attrs : List (String × AttrKind)) (pairs : List (String × String))
    (r : List (String × PyVal)) :
    strat2 attrs (some (.ok pairs)) r = s2Go attrs pairs r := by
  rw [strat2]

theorem strat2_none (attrs : List (String × AttrKind)) (r : List (String × PyVal)) :
    strat2 attrs Option.none r = r := by
  rw [strat2] <;> simp

theorem strat2_err (attrs : List (String × AttrKind)) (e : String)
    (r : List (String × PyVal)) :
    strat2 attrs (some (.error e)) r = r := by
  rw [strat2] <;> simp

theorem strat3_ok (entries : List (String × PyVal)) (r : List (String × PyVal)) :
    strat3 (some (.ok entries)) r = s3Go entries r := by
  rw [strat3]

theorem strat3_none (r : List (String × PyVal)) :
    strat3 Option.none r = r := by
  rw [strat3] <;> simp

theorem strat3_err (e : String) (r : List (String × PyVal)) :
    strat3 (some (.error e)) r = r := by
  rw [strat3] <;> simp

theorem strat4_none (attrs : List (String × AttrKind)) (r : List (String × PyVal)) :
    strat4 Option.none attrs r = s4Go attrs r := by
  rw [strat4]

theorem strat4_some (m : String) (attrs : List (String × AttrKind))
    (r : List (String × PyVal)) :
    strat4 (some m) attrs r = r := by
  rw [strat4]

theorem strat5_ok (entries : List (String × PyVal)) (r : List (String × PyVal)) :
    strat5 (some (.ok entries)) r = s5Go entries r := by
  rw [strat5]

theorem strat5_none (r : List (String × PyVal)) :
    strat5 Option.none r = r := by
  rw [strat5] <;> simp

theorem strat5_err (e : String) (r : List (String × PyVal)) :
    strat5 (some (.error e)) r = r := by
  rw [strat5] <;> simp

/-- `convert` on an SDK object is the five-strategy pipeline followed by
the sentinel fallback. -/
theorem convert_obj (tn : String) (td : Option (Except String PyVal))
    (am : Option (Except String (List (String × String))))
    (dd : Option (Except String (List (String × PyVal))))
    (de : Option String) (attrs : List (String × AttrKind)) :
    convert (.pyobj (.mk tn td am dd de attrs)) =
      orSentinel tn
        (strat5 dd (strat4 de attrs (strat3 dd (strat2 attrs am (strat1 td))))) := by
  rw [convert]

/-- The element rule of the nested-list normalization, as a `map`. -/
theorem normItems_eq_map : ∀ xs : List PyVal,
    normItems xs = xs.map (fun item =>
      if hasDunder item then .pydict (convert item) else item) := by
  intro xs
  induction xs with
  | nil => rw [normItems]; simp
  | cons x rest ih => rw [normItems]; simp [ih]

/-! ### Claim C1 -/

/-- Claim C1, counterexample: the claim fails as stated.
`HeartbeatsTools.create_heartbeat` always returns an envelope with an
extra top-level `message` key and no `data` key, so it matches neither
allowed shape; and `PagesTools.list_pages` catches only `PingeraError`,
so an exception of any other type escapes the tool to the transport
layer. -/
theorem c1_counterexample :
    ¬ isSuccessEnvelope create_heartbeat_envelope ∧
    ¬ isErrorEnvelope create_heartbeat_envelope ∧
    list_pages_envelope (.otherError "boom") = .error "boom" := by
  refine ⟨?_, ?_, rfl⟩
  · rintro ⟨hkeys, -⟩
    have := (hkeys "message").mp (by simp [create_heartbeat_envelope, containsKey])
    simp at this
  · rintro ⟨hkeys, -⟩
    have := (hkeys "data").mpr (by simp)
    simp [create_heartbeat_envelope, containsKey] at this

/-- Claim C1, amended: for every collaborator outcome that is a normal
return or a raised `PingeraError`, `list_pages` returns exactly one of
the two envelope shapes; outcomes raising any other exception type are
excluded, since they escape the tool uncaught (and the heartbeat write
stubs return a third, `message`-bearing shape). -/
theorem c1_amended_envelope_shape : ∀ o : SdkOutcome,
    (∀ m, o ≠ .otherError m) →
    ∃ kvs, list_pages_envelope o = .ok kvs ∧
      (isSuccessEnvelope kvs ∨ isErrorEnvelope kvs) := by
  intro o hno
  cases o with
  | ok d =>
    refine ⟨success_envelope d, rfl,
      Or.inl ⟨?_, by simp [success_envelope, dictLookup]⟩⟩
    intro k
    constructor
    · intro h
      simp [success_envelope, containsKey] at h
      tauto
    · intro h
      rcases h with h | h <;> simp [success_envelope, containsKey, h]
  | pingeraError m =>
    refine ⟨error_envelope m (.pydict [("pages", .pylist []), ("total", .pyint 0)]),
      rfl, Or.inr ⟨?_, by simp [error_envelope, dictLookup], m,
        by simp [error_envelope, dictLookup]⟩⟩
    intro k
    constructor
    · intro h
      simp [error_envelope, containsKey] at h
      tauto
    · intro h
      rcases h with h | h | h <;> simp [error_envelope, containsKey, h]
  | otherError m => exact absurd rfl (hno m)

/-- Claim C1, witness: the amended theorem at the `PingeraError`
outcome of the spec's authentication-failure scenario. -/
theorem c1_amended_envelope_shape_witness :
    ∃ kvs, list_pages_envelope (.pingeraError "Authentication failed.") = .ok kvs ∧
      (isSuccessEnvelope kvs ∨ isErrorEnvelope kvs) :=
  c1_amended_envelope_shape (.pingeraError "Authentication failed.")
    (fun _ h => nomatch h)

/-! ### Claim C2 -/

/-- Claim C2: the Normalizer is total — it is a function, its output
always serializes under the system's `default=str` serializer — and an
object every one of whose introspection facets raises (a raising
`to_dict`, a raising `attribute_map`, a `__dict__` that raises on
iteration, a raising `dir()`) degrades to the sentinel mapping: every
per-strategy exception is caught and treated as that strategy yielding
nothing. -/
theorem c2_normalizer_total_and_exceptions_caught :
    (∀ v : PyVal, (dumps true (.pydict (convert v))).isSome = true) ∧
    (∀ (tn e1 e2 e3 de : String) (attrs : List (String × AttrKind)),
      convert (.pyobj (.mk tn (some (.error e1)) (some (.error e2))
          (some (.error e3)) (some de) attrs)) =
        [("_raw_object_type", PyVal.pystr tn),
         ("_extraction_failed", PyVal.pybool true)]) := by
  constructor
  · intro v
    exact dumps_default_total (.pydict (convert v))
  · intro tn e1 e2 e3 de attrs
    rw [convert_obj, strat2_err, strat3_err, strat4_some, strat5_err]
    have h1 : strat1 (some (Except.error e1)) = [] := by rw [strat1] <;> simp
    rw [h1]
    simp [orSentinel]

/-! ### Claim C3 -/

/-- Claim C3, counterexample: the strategies do not stop at the first
non-empty mapping and conflicts are not first-writer-wins.  On an
object whose `to_dict` yields the non-empty mapping `a = 1` and whose
`__dict__` holds `a = 2`, strategy 3 still runs and overwrites the key
written by strategy 1: the final binding is `a = 2`, not `a = 1`. -/
theorem c3_counterexample :
    strat1 (some (.ok (.pydict [("a", PyVal.pyint 1)]))) = [("a", PyVal.pyint 1)] ∧
    convert (.pyobj (.mk "<class 'X'>" (some (.ok (.pydict [("a", PyVal.pyint 1)])))
        Option.none (some (.ok [("a", PyVal.pyint 2)])) Option.none [])) =
      [("a", PyVal.pyint 2)] := by
  constructor
  · simp [strat1, dictUpdate, dictSet]
  · simp [convert_obj, strat1, strat2_none, strat3_ok, strat4_none, strat5_ok,
          orSentinel, s4Go_nil, s3Go_cons_ne, s3Go_nil, s5Go_cons_seen, s5Go_nil,
          dictUpdate, dictSet, containsKey, normVal]

/-- Claim C3, amended: all five strategies always run, cumulatively;
within strategies 1-3 a later strategy may overwrite an earlier one's
key (dict-assignment semantics, last-writer-wins), while strategies 4
and 5 add unseen keys only — so every binding present after strategy 3
persists unchanged into the final result, and the (pure) pipeline is
deterministic. -/
theorem c3_amended_post_strategy3_bindings_persist :
    ∀ (tn : String) (td : Option (Except String PyVal))
    (am : Option (Except String (List (String × String))))
    (dd : Option (Except String (List (String × PyVal))))
    (de : Option String) (attrs : List (String × AttrKind))
    (k : String) (v : PyVal),
    dictLookup (strat3 dd (strat2 attrs am (strat1 td))) k = some v →
    dictLookup (convert (.pyobj (.mk tn td am dd de attrs))) k = some v := by
  intro tn td am dd de attrs k v h
  have hck : containsKey (strat3 dd (strat2 attrs am (strat1 td))) k = true :=
    containsKey_of_dictLookup h
  set r3 := strat3 dd (strat2 attrs am (strat1 td)) with hr3
  have h4 : dictLookup (strat4 de attrs r3) k = some v := by
    cases de with
    | none => rw [strat4_none, s4Go_preserves attrs r3 k hck]; exact h
    | some m => rw [strat4_some]; exact h
  have hck4 : containsKey (strat4 de attrs r3) k = true := by
    cases de with
    | none => rw [strat4_none]; exact s4Go_mono attrs r3 k hck
    | some m => rw [strat4_some]; exact hck
  have h5 : dictLookup (strat5 dd (strat4 de attrs r3)) k = some v := by
    cases dd with
    | none => rw [strat5_none]; exact h4
    | some e =>
      cases e with
      | ok entries => rw [strat5_ok, s5Go_preserves entries _ k hck4]; exact h4
      | error m => rw [strat5_err]; exact h4
  have hck5 : containsKey (strat5 dd (strat4 de attrs r3)) k = true := by
    cases dd with
    | none => rw [strat5_none]; exact hck4
    | some e =>
      cases e with
      | ok entries => rw [strat5_ok]; exact s5Go_mono entries _ k hck4
      | error m => rw [strat5_err]; exact hck4
  rw [convert_obj, orSentinel_of_containsKey tn hck5]
  exact h5

/-- Claim C3, witness: the amended theorem at the counterexample's
object, where the binding `a = 2` left by strategy 3 is the final one. -/
theorem c3_amended_post_strategy3_bindings_persist_witness :
    dictLookup (convert (.pyobj (.mk "<class 'X'>"
        (some (.ok (.pydict [("a", PyVal.pyint 1)])))
        Option.none (some (.ok [("a", PyVal.pyint 2)])) Option.none [])))
      "a" = some (PyVal.pyint 2) :=
  c3_amended_post_strategy3_bindings_persist "<class 'X'>"
    (some (.ok (.pydict [("a", PyVal.pyint 1)]))) Option.none
    (some (.ok [("a", PyVal.pyint 2)])) Option.none [] "a" (PyVal.pyint 2)
    (by simp [strat2_none, strat3_ok, strat1, dictUpdate, dictSet,
              s3Go_cons_ne, s3Go_nil, normVal, containsKey, dictLookup])

/-! ### Claim C4 -/

/-- Claim C4, counterexample: on the claim's own example object —
instance attributes `name`, `_internal_cache`, `status` — the
underscore-prefixed key is NOT excluded: strategy 3 copies every
non-null `__dict__` entry, so `_internal_cache` appears in the result
(there is no denylist anywhere in the function). -/
theorem c4_counterexample :
    convert (.pyobj (.mk "<class 'Component'>" Option.none Option.none
        (some (.ok [("name", PyVal.pystr "API Server"),
                    ("_internal_cache", PyVal.pydict [("k", PyVal.pyint 1)]),
                    ("status", PyVal.pystr "operational")]))
        Option.none
        [("name", AttrKind.val (PyVal.pystr "API Server")),
         ("status", AttrKind.val (PyVal.pystr "operational"))])) =
      [("name", PyVal.pystr "API Server"),
       ("_internal_cache", PyVal.pydict [("k", PyVal.pyint 1)]),
       ("status", PyVal.pystr "operational")] ∧
    containsKey (convert (.pyobj (.mk "<class 'Component'>" Option.none Option.none
        (some (.ok [("name", PyVal.pystr "API Server"),
                    ("_internal_cache", PyVal.pydict [("k", PyVal.pyint 1)]),
                    ("status", PyVal.pystr "operational")]))
        Option.none
        [("name", AttrKind.val (PyVal.pystr "API Server")),
         ("status", AttrKind.val (PyVal.pystr "operational"))]))) "_internal_cache"
      = true := by
  have h1 : underscoreFirst ("name") = false := by decide
  have h2 : underscoreFirst ("status") = false := by decide
  constructor
  · simp [convert_obj, strat1, strat2_none, strat3_ok, strat4_none, strat5_ok,
          orSentinel, s3Go_cons_ne, s3Go_nil, s5Go_cons_seen, s5Go_nil,
          s4Go_cons_seen, s4Go_nil, dictSet, containsKey, normVal, h1, h2]
  · simp [convert_obj, strat1, strat2_none, strat3_ok, strat4_none, strat5_ok,
          orSentinel, s3Go_cons_ne, s3Go_nil, s5Go_cons_seen, s5Go_nil,
          s4Go_cons_seen, s4Go_nil, dictSet, containsKey, normVal, h1, h2]

/-- Claim C4, amended: every instance attribute with a non-null value —
underscore-prefixed or not — ends up as a key of the normalized result;
only the dir()-based strategy 4 filters underscore-prefixed names, and
there is no internal-metadata denylist. -/
theorem c4_amended_underscore_instance_attrs_included :
    ∀ (tn : String) (td : Option (Except String PyVal))
    (am : Option (Except String (List (String × String))))
    (de : Option String) (attrs : List (String × AttrKind))
    (entries : List (String × PyVal)) (k : String) (v : PyVal),
    (k, v) ∈ entries → ¬ v = PyVal.pynone →
    containsKey (convert (.pyobj (.mk tn td am (some (.ok entries)) de attrs))) k
      = true := by
  intro tn td am de attrs entries k v hm hv
  have hck : containsKey
      (strat3 (some (.ok entries)) (strat2 attrs am (strat1 td))) k = true := by
    rw [strat3_ok]
    exact s3Go_establish entries _ k v hm hv
  set r3 := strat3 (some (.ok entries)) (strat2 attrs am (strat1 td)) with hr3
  have hck4 : containsKey (strat4 de attrs r3) k = true := by
    cases de with
    | none => rw [strat4_none]; exact s4Go_mono attrs r3 k hck
    | some m => rw [strat4_some]; exact hck
  have hck5 : containsKey (strat5 (some (.ok entries)) (strat4 de attrs r3)) k
      = true := by
    rw [strat5_ok]; exact s5Go_mono entries _ k hck4
  rw [convert_obj, orSentinel_of_containsKey tn hck5]
  exact hck5

/-- Claim C4, witness: the amended theorem at the example object — the
underscore-prefixed instance attribute is included. -/
theorem c4_amended_underscore_instance_attrs_included_witness :
    ("_internal_cache", PyVal.pydict [("k", PyVal.pyint 1)]) ∈
      [("name", PyVal.pystr "API Server"),
       ("_internal_cache", PyVal.pydict [("k", PyVal.pyint 1)]),
       ("status", PyVal.pystr "operational")] ∧
    containsKey (convert (.pyobj (.mk "<class 'Component'>" Option.none Option.none
        (some (.ok [("name", PyVal.pystr "API Server"),
                    ("_internal_cache", PyVal.pydict [("k", PyVal.pyint 1)]),
                    ("status", PyVal.pystr "operational")]))
        Option.none []))) "_internal_cache" = true :=
  ⟨by simp,
   c4_amended_underscore_instance_attrs_included "<class 'Component'>"
     Option.none Option.none Option.none []
     [("name", PyVal.pystr "API Server"),
      ("_internal_cache", PyVal.pydict [("k", PyVal.pyint 1)]),
      ("status", PyVal.pystr "operational")]
     "_internal_cache" (PyVal.pydict [("k", PyVal.pyint 1)]) (by simp) (by simp)⟩

/-! ### Claim C5 -/

/-- Claim C5, counterexample: no identifier back-fill exists.  An object
exposing a non-null attribute `id = 7`, but whose `dir()` raises and
which has no other readable facet, normalizes to the sentinel mapping:
no id-bearing key and no key carrying the value 7 — the code only logs
when no id-like key was found, it never scans the well-known identifier
attribute names. -/
theorem c5_counterexample :
    getattrVal [("id", AttrKind.val (PyVal.pyint 7))] "id" = some (PyVal.pyint 7) ∧
    convert (.pyobj (.mk "<class 'Check'>" Option.none Option.none Option.none
        (some "dir() raised") [("id", AttrKind.val (PyVal.pyint 7))])) =
      [("_raw_object_type", PyVal.pystr "<class 'Check'>"),
       ("_extraction_failed", PyVal.pybool true)] ∧
    dictLookup (convert (.pyobj (.mk "<class 'Check'>" Option.none Option.none
        Option.none (some "dir() raised")
        [("id", AttrKind.val (PyVal.pyint 7))]))) "id" = Option.none := by
  refine ⟨by simp [getattrVal], ?_, ?_⟩
  · simp [convert_obj, strat1, strat2_none, strat3_none, strat4_some, strat5_none,
          orSentinel]
  · simp [convert_obj, strat1, strat2_none, strat3_none, strat4_some, strat5_none,
          orSentinel, dictLookup]

/-- Claim C5, amended: identifier attributes are preserved only when a
strategy reaches them — in particular, a non-null `id` attribute visible
to the working dir() scan is captured by strategy 4 like any other
public attribute; there is no dedicated back-fill pass. -/
theorem c5_amended_id_captured_by_dir_scan :
    ∀ (tn : String) (v : PyVal), ¬ v = PyVal.pynone →
    dictLookup (convert (.pyobj (.mk tn Option.none Option.none Option.none
        Option.none [("id", AttrKind.val v)]))) "id" = some (normVal v) := by
  intro tn v hv
  rw [convert_obj, strat1_none]
  rw [strat2_none, strat3_none, strat4_none, strat5_none]
  rw [s4Go_cons_new (by decide) hv (by rfl), s4Go_nil]
  rw [orSentinel_of_containsKey tn (containsKey_dictSet_self [] "id" (normVal v))]
  simp [dictSet, dictLookup]

/-- Claim C5, witness: the amended theorem at a string-valued `id`. -/
theorem c5_amended_id_captured_by_dir_scan_witness :
    dictLookup (convert (.pyobj (.mk "<class 'Check'>" Option.none Option.none
        Option.none Option.none [("id", AttrKind.val (PyVal.pystr "abc123"))])))
      "id" = some (normVal (PyVal.pystr "abc123")) :=
  c5_amended_id_captured_by_dir_scan "<class 'Check'>" (PyVal.pystr "abc123")
    (by simp)

/-! ### Claim C6 -/

/-- Claim C6, counterexample: a top-level sequence input is not
normalized element-wise.  The claim's own scenario — a list of two
normalizable objects and one opaque one — yields the two-entry sentinel
mapping, not a three-element sequence: a Python list exposes no
extractable facet, so every strategy yields nothing. -/
theorem c6_counterexample :
    convert (.pylist [.pyobj demoA, .pyobj demoB, .pyobj demoOpaque]) =
      [("_raw_object_type", PyVal.pystr ("<class 'list'>")),
       ("_extraction_failed", PyVal.pybool true)] := by
  simp [convert, pyTypeName]

/-- Claim C6, amended: element-wise normalization happens only for list
values nested inside objects (and at tool call sites), never for a
top-level sequence input, which always produces the sentinel mapping;
the nested rule preserves length and order, recursively converts items
exposing a `__dict__` (an opaque item with an unreadable `__dict__`
yields the sentinel), and passes other items through unchanged. -/
theorem c6_amended_elementwise_only_nested :
    (∀ xs : List PyVal, convert (.pylist xs) =
      [("_raw_object_type", PyVal.pystr ("<class 'list'>")),
       ("_extraction_failed", PyVal.pybool true)]) ∧
    (∀ xs : List PyVal, normItems xs = xs.map (fun item =>
      if hasDunder item then .pydict (convert item) else item)) ∧
    normItems [.pyobj demoA, .pyobj demoB, .pyobj demoOpaque] =
      [.pydict [("name", PyVal.pystr "a")],
       .pydict [("name", PyVal.pystr "b")],
       .pydict [("_raw_object_type", PyVal.pystr "<class 'Opaque'>"),
                ("_extraction_failed", PyVal.pybool true)]] := by
  refine ⟨fun xs => by simp [convert, pyTypeName], normItems_eq_map, ?_⟩
  rw [normItems_eq_map]
  simp [demoA, demoB, demoOpaque, hasDunder, PyObjData.dunder,
        convert_obj, strat1, strat2_none, strat3_ok, strat3_err, strat4_none,
        strat4_some, strat5_ok, strat5_err, orSentinel, s3Go_cons_ne, s3Go_nil,
        s5Go_cons_seen, s5Go_nil, s4Go_nil, dictSet, containsKey, normVal]

/-! ### Claim C7 -/

/-- Claim C7: an input that is already a mapping is returned unchanged
(pass-through, no re-validation), and hence normalization is idempotent
on mappings. -/
theorem c7_mapping_passthrough_idempotent : ∀ kvs : List (String × PyVal),
    convert (.pydict kvs) = kvs ∧
    convert (.pydict (convert (.pydict kvs))) = convert (.pydict kvs) := by
  intro kvs
  constructor <;> simp [convert]

/-! ### Claim C8 -/

/-- Claim C8, counterexample: pagination parameters are not forwarded as
given.  `list_pages` caps `per_page = 150` at 100 before the call, and
the SDK layer substitutes defaults `page = 1`, `page_size = 20` for
absent values via Python `or`. -/
theorem c8_counterexample :
    list_pages_api_args (some 2) (some 150) = (2, 100) ∧
    list_pages_api_args Option.none Option.none = (1, 20) ∧
    list_pages_clamp (some 150) = some 100 := by
  refine ⟨?_, ?_, ?_⟩ <;>
    simp [list_pages_api_args, pages_sdk_list_args, list_pages_clamp, pyOrInt]

/-- Claim C8, amended: for the pages list pipeline, a supplied
`per_page` in the range 1..100 reaches the API unchanged, a value above
100 is capped at 100 in the tool layer, and an absent value becomes the
SDK-layer default 20; the heartbeats list kwargs, by contrast, are
forwarded exactly as given. -/
theorem c8_amended_pagination_clamped_and_defaulted :
    ∀ (p : Option Int) (v : Int), 0 < v → v ≤ 100 →
    (list_pages_api_args p (some v)).2 = v ∧
    (∀ w : Int, 100 < w → (list_pages_api_args p (some w)).2 = 100) ∧
    (list_pages_api_args p Option.none).2 = 20 ∧
    (∀ a b : Int, list_heartbeats_kwargs (some a) (some b) =
      [("page", a), ("page_size", b)]) := by
  intro p v hpos hle
  refine ⟨?_, ?_, ?_, ?_⟩
  · have h1 : ¬ (100 : Int) < v := by omega
    have h2 : ¬ v = 0 := by omega
    simp [list_pages_api_args, pages_sdk_list_args, list_pages_clamp, pyOrInt, h1, h2]
  · intro w hw
    simp [list_pages_api_args, pages_sdk_list_args, list_pages_clamp, pyOrInt, hw]
  · simp [list_pages_api_args, pages_sdk_list_args, list_pages_clamp, pyOrInt]
  · intro a b
    simp [list_heartbeats_kwargs]

/-- Claim C8, witness: the amended theorem at `per_page = 50`, which is
forwarded unchanged. -/
theorem c8_amended_pagination_clamped_and_defaulted_witness :
    (list_pages_api_args (some 2) (some 50)).2 = 50 :=
  (c8_amended_pagination_clamped_and_defaulted (some 2) 50 (by decide) (by decide)).1

/-! ### Claim C9 -/

/-- Claim C9: `_success_response` serializes with `default=str` and so
returns a string for every data value, while `_error_response` has no
fallback and fails on non-serializable data such as a raw SDK object. -/
theorem c9_success_total_error_partial :
    (∀ data : PyVal, (success_response data).isSome = true) ∧
    (∃ (m : String) (data : PyVal), error_response m data = Option.none) := by
  constructor
  · intro data
    exact dumps_default_total (.pydict (success_envelope data))
  · refine ⟨"boom", .pyobj (.mk "<class 'Opaque'>" Option.none Option.none
      Option.none Option.none []), ?_⟩
    simp [error_response, error_envelope, dumps, dumpsEntries]

/-! ### Claim C10 -/

/-- Claim C10: the exhaustive-introspection passes — the dir()-based
strategy 4 and the vars()-based strategy 5 — are add-only: the value of
every key already present in the accumulated result is left unchanged
by either pass. -/
theorem c10_exhaustive_passes_add_only : ∀ (attrs : List (String × AttrKind))
    (entries r : List (String × PyVal)) (k : String),
    containsKey r k = true →
    dictLookup (s4Go attrs r) k = dictLookup r k ∧
    dictLookup (s5Go entries r) k = dictLookup r k :=
  fun attrs entries r k h =>
    ⟨s4Go_preserves attrs r k h, s5Go_preserves entries r k h⟩

/-- Claim C10, witness: both passes leave an existing binding intact on
a concrete state. -/
theorem c10_exhaustive_passes_add_only_witness :
    containsKey [("name", PyVal.pystr "kept")] "name" = true ∧
    dictLookup (s4Go [("name", AttrKind.val (PyVal.pystr "x"))]
        [("name", PyVal.pystr "kept")]) "name" =
      dictLookup [("name", PyVal.pystr "kept")] "name" ∧
    dictLookup (s5Go [("name", PyVal.pystr "z")]
        [("name", PyVal.pystr "kept")]) "name" =
      dictLookup [("name", PyVal.pystr "kept")] "name" :=
  ⟨by simp [containsKey],
   (c10_exhaustive_passes_add_only [("name", AttrKind.val (PyVal.pystr "x"))]
      [("name", PyVal.pystr "z")] [("name", PyVal.pystr "kept")] "name"
      (by simp [containsKey])).1,
   (c10_exhaustive_passes_add_only [("name", AttrKind.val (PyVal.pystr "x"))]
      [("name", PyVal.pystr "z")] [("name", PyVal.pystr "kept")] "name"
      (by simp [containsKey])).2⟩
